import Mathlib

/-!
Shallow embedding of the task-board API (Django/DRF application):
authentication, boards, tasks and comments, with the authorization,
validation and response-shaping logic of the source translated into
executable Lean definitions. The database is modelled as lists of rows;
querysets become list filters and sorts; serializer/field validation
becomes explicit `Except` computations.
-/

namespace TaskBoard

/-- Application user (`authentication/models.py`, class `User`):
email is the unique identifier, `full_name` the single name field. -/
structure User where
  id : Nat
  email : String
  full_name : String
  is_active : Bool := true
deriving Repr, DecidableEq

/-- Board row (`boards/models.py`, class `Board`): title, owner FK,
many-to-many member set (stored here as the list of member user ids). -/
structure Board where
  id : Nat
  title : String
  owner_id : Nat
  member_ids : List Nat
deriving Repr, DecidableEq

/-- Task row (`tasks/models.py`, class `Task`): FK to its board, optional
assignee/reviewer/creator FKs stored as optional user ids. -/
structure Task where
  id : Nat
  board_id : Nat
  title : String
  description : String := ""
  status : String
  priority : String
  assignee_id : Option Nat := none
  reviewer_id : Option Nat := none
  due_date : Option String := none
  created_by_id : Option Nat := none
deriving Repr, DecidableEq

/-- Comment row (`tasks/models.py`, class `Comment`): FK to its task,
optional author FK, content, creation timestamp (modelled as `Nat`). -/
structure Comment where
  id : Nat
  task_id : Nat
  author_id : Option Nat
  content : String
  created_at : Nat
deriving Repr, DecidableEq

/-- The relational store: one list of rows per table. -/
structure DB where
  users : List User
  boards : List Board
  tasks : List Task
  comments : List Comment
deriving Repr, DecidableEq

/-- Error taxonomy of the API (DRF exceptions used by the source):
`validation` carries the field-scoped messages of a DRF
`ValidationError` dict, `forbidden` is `PermissionDenied` (403),
`notFound` is `NotFound` (404). -/
inductive ApiError where
  | validation (details : List (String × String))
  | forbidden (msg : String)
  | notFound (msg : String)
deriving Repr, DecidableEq

def DB.findUser (db : DB) (uid : Nat) : Option User :=
  db.users.find? (fun u => u.id == uid)

def DB.findBoard (db : DB) (bid : Nat) : Option Board :=
  db.boards.find? (fun b => b.id == bid)

def DB.findTask (db : DB) (tid : Nat) : Option Task :=
  db.tasks.find? (fun t => t.id == tid)

/-- The membership test used by every board/task/comment gate in the views:
`board.owner_id == user.id or board.members.filter(id=user.id).exists()`. -/
def Board.isOwnerOrMember (b : Board) (uid : Nat) : Bool :=
  b.owner_id == uid || b.member_ids.contains uid

/-- Embedding of `BoardDetailUpdateDestroyView.get_object` (boards/api/views.py):
first `_get_board_or_404`, then, for GET/PATCH, the owner-or-member gate. -/
def getBoard (db : DB) (uid bid : Nat) : Except ApiError Board :=
  match db.findBoard bid with
  | none => .error (.notFound "Board not found.")
  | some board =>
      if board.owner_id != uid && !(board.member_ids.contains uid) then
        .error (.forbidden "You do not have access to this board.")
      else
        .ok board

/-- Embedding of `BoardDetailUpdateDestroyView.destroy` (boards/api/views.py):
first `_get_board_or_404`, then the owner check, then `board.delete()`. Deleting a
board cascades over `Task.board` and `Comment.task`, both declared
`on_delete=CASCADE` in the models. -/
def deleteBoard (db : DB) (uid bid : Nat) : Except ApiError DB :=
  match db.findBoard bid with
  | none => .error (.notFound "Board not found.")
  | some board =>
      if uid != board.owner_id then
        .error (.forbidden "Only the board owner may delete this board.")
      else
        let deadTaskIds := (db.tasks.filter (fun t => t.board_id == board.id)).map (fun t => t.id)
        .ok { db with
              boards := db.boards.filter (fun b => b.id != board.id),
              tasks := db.tasks.filter (fun t => t.board_id != board.id),
              comments := db.comments.filter (fun c => !(deadTaskIds.contains c.task_id)) }

/-!  Python string primitives used by the source, re-implemented by
structural recursion on the character list so that they evaluate inside
the kernel. -/

def isSpaceChar (c : Char) : Bool :=
  c == ' ' || c == '\t' || c == '\n' || c == '\r'

/-- Python `str.strip()` (whitespace from both ends). -/
def pyStrip (s : String) : String :=
  ⟨((s.data.dropWhile isSpaceChar).reverse.dropWhile isSpaceChar).reverse⟩

/-- Python `str.lower()` (ASCII case folding suffices here). -/
def pyLower (s : String) : String :=
  ⟨s.data.map Char.toLower⟩

def digitsToNat? (cs : List Char) : Option Nat :=
  match cs with
  | [] => none
  | _ =>
      cs.foldl
        (fun acc c =>
          match acc with
          | none => none
          | some n => if c.isDigit then some (n * 10 + (c.toNat - 48)) else none)
        (some 0)

/-- Python `int(s)` on an already-stripped string: an optional sign
followed by at least one decimal digit, else a `ValueError` (`none`). -/
def pyInt? (s : String) : Option Int :=
  match s.data with
  | '-' :: rest => (digitsToNat? rest).map (fun n => -(n : Int))
  | '+' :: rest => (digitsToNat? rest).map (fun n => (n : Int))
  | cs => (digitsToNat? cs).map (fun n => (n : Int))

/-!  Authentication (`authentication/api/serializers.py`, `RegistrationSerializer`). -/

/-- Field-stage errors of the registration serializer, collected the way
DRF collects per-field errors into one dict before cross-field
`validate` runs: the `validate_email` case-insensitive duplicate check
(`email__iexact`), and the `min_length=8` constraints of the two
password fields. -/
def registrationFieldErrors (db : DB) (email password repeated_password : String) :
    List (String × String) :=
  (if db.users.any (fun u => pyLower u.email == pyLower email) then
      [("email", "A user with this email already exists.")]
    else [])
  ++ (if password.length < 8 then
        [("password", "Ensure this field has at least 8 characters.")]
      else [])
  ++ (if repeated_password.length < 8 then
        [("repeated_password", "Ensure this field has at least 8 characters.")]
      else [])

def DB.nextUserId (db : DB) : Nat :=
  (db.users.map (fun u => u.id)).foldl max 0 + 1

/-- Embedding of `RegistrationView.post` with `RegistrationSerializer`: field validation,
then `validate` (password = repeated_password), then `create`, which adds
a new user with the given full name and email. -/
def register (db : DB) (fullname email password repeated_password : String) :
    Except ApiError DB :=
  let fieldErrs := registrationFieldErrors db email password repeated_password
  if fieldErrs ≠ [] then
    .error (.validation fieldErrs)
  else if password ≠ repeated_password then
    .error (.validation [("repeated_password", "Passwords do not match.")])
  else
    .ok { db with users := db.users ++
            [{ id := db.nextUserId, email := email, full_name := fullname }] }

/-!  Board member-list validation (`boards/api/serializers.py`). -/

/-- Embedding of `list(dict.fromkeys(value))`: deduplicate keeping first occurrences. -/
def dedup_keep_first (l : List Nat) : List Nat :=
  l.foldl (fun acc x => if acc.contains x then acc else acc ++ [x]) []

/-- Embedding of `BoardCreateSerializer.validate_members` and
`BoardMembersUpdateSerializer.validate_members` (identical bodies):
dedupe the id list keeping first occurrences, look up which distinct ids
exist, fail if any is missing, otherwise return the deduped list. -/
def validate_members (db : DB) (value : List Nat) : Except ApiError (List Nat) :=
  let unique_ids := dedup_keep_first value
  let missing := unique_ids.filter (fun uid => !(db.users.any (fun u => u.id == uid)))
  if missing ≠ [] then
    .error (.validation [("members", "Unknown user IDs.")])
  else
    .ok unique_ids

/-- Embedding of `board.members.set(User.objects.filter(id__in=member_ids))`: the
resulting membership, as the ids of the stored users whose id occurs in
the validated list. -/
def membersSet (db : DB) (member_ids : List Nat) : List Nat :=
  (db.users.filter (fun u => member_ids.contains u.id)).map (fun u => u.id)

/-!  Board listing (`boards/api/views.py`, `BoardListCreateView.get_queryset`). -/

def ticket_count (db : DB) (b : Board) : Nat :=
  (db.tasks.filter (fun t => t.board_id == b.id)).length

def tasks_to_do_count (db : DB) (b : Board) : Nat :=
  (db.tasks.filter (fun t => t.board_id == b.id && t.status == "to-do")).length

def tasks_high_prio_count (db : DB) (b : Board) : Nat :=
  (db.tasks.filter (fun t => t.board_id == b.id && t.priority == "high")).length

/-- Embedding of `Board.objects.filter(Q(owner=user) | Q(members=user)).distinct()
.annotate(...).order_by("id")`: the distinct boards where the user is
owner or member, in ascending id order. -/
def listBoards (db : DB) (uid : Nat) : List Board :=
  List.insertionSort (fun a b => a.id ≤ b.id)
    (db.boards.filter (fun b => b.owner_id == uid || b.member_ids.contains uid))

/-!  Task serializers (`tasks/api/serializers.py`). -/

/-- A JSON scalar as it arrives in a request body field. -/
inductive JVal where
  | jnull
  | jbool (b : Bool)
  | jint (n : Int)
  | jstr (s : String)
deriving Repr, DecidableEq

/-- DRF `serializers.IntegerField(required=False, allow_null=True)`
run on an optional request field (`none` = key absent). Absent keys are
skipped (`required=False`); `null` validates to `None` (`allow_null`);
other values go through `int(str(data).strip())`: booleans stringify to
"True"/"False" and fail, strings must parse as an integer. The failure
is the field-scoped message "A valid integer is required.". -/
def intFieldRun (field : String) : Option JVal → Except ApiError (Option Int)
  | none => .ok none
  | some .jnull => .ok none
  | some (.jint n) => .ok (some n)
  | some (.jbool _) => .error (.validation [(field, "A valid integer is required.")])
  | some (.jstr s) =>
      match pyInt? (pyStrip s) with
      | some n => .ok (some n)
      | none => .error (.validation [(field, "A valid integer is required.")])

/-- The shared lookup-and-membership step of `TaskCreateSerializer.validate`
and `TaskUpdateSerializer.validate`: `User.objects.get(pk=...)` else
`{field: "User not found."}`, then the board owner-or-member test else
`{field: "User is not a member of this board."}`. -/
def memberOrOwnerRef (db : DB) (b : Board) (field : String) (n : Int) :
    Except ApiError Nat :=
  match db.users.find? (fun u => (u.id : Int) == n) with
  | none => .error (.validation [(field, "User not found.")])
  | some u =>
      if u.id == b.owner_id || b.member_ids.contains u.id then
        .ok u.id
      else
        .error (.validation [(field, "User is not a member of this board.")])

/-- The per-reference body of `TaskCreateSerializer.validate`:
`if assignee_id is not None:` look the user up and require membership.
`none` covers both an absent key and an explicit `null` (both leave the
popped value `None`). -/
def createResolveRef (db : DB) (b : Board) (field : String) :
    Option Int → Except ApiError (Option Nat)
  | none => .ok none
  | some n => (memberOrOwnerRef db b field n).map some

/-- The per-reference body of `TaskUpdateSerializer.validate`:
`if assignee_id in ("", False): attrs[...] = None` else look up and
require membership. After the IntegerField stage the value is an `Int`,
and Python's `n in ("", False)` holds exactly when `n == 0` (because
`0 == False`). Result: `none` = leave the stored reference unchanged,
`some none` = clear it, `some (some uid)` = set it. -/
def updateResolveRef (db : DB) (b : Board) (field : String) :
    Option Int → Except ApiError (Option (Option Nat))
  | none => .ok none
  | some n =>
      if n == 0 then .ok (some none)
      else (memberOrOwnerRef db b field n).map (fun uid => some (some uid))

def DB.nextTaskId (db : DB) : Nat :=
  (db.tasks.map (fun t => t.id)).foldl max 0 + 1

/-- Embedding of `TaskCreateView.create` with `TaskCreateSerializer` (assignee/reviewer
path): board lookup (404), owner-or-member gate (403), IntegerField
stage for the two reference fields, then `validate`; on success the new
task is appended (`created_by` is not populated by the serializer). -/
def createTask (db : DB) (uid bid : Nat) (title description status priority : String)
    (assigneeRaw reviewerRaw : Option JVal) (due_date : Option String) :
    Except ApiError (DB × Task) :=
  match db.findBoard bid with
  | none => .error (.notFound "Board not found.")
  | some b =>
      if !(b.owner_id == uid || b.member_ids.contains uid) then
        .error (.forbidden "You must be a member of this board to create a task.")
      else do
        let av ← intFieldRun "assignee_id" assigneeRaw
        let rv ← intFieldRun "reviewer_id" reviewerRaw
        let aId ← createResolveRef db b "assignee_id" av
        let rId ← createResolveRef db b "reviewer_id" rv
        let t : Task :=
          { id := db.nextTaskId, board_id := bid, title := title,
            description := description, status := status, priority := priority,
            assignee_id := aId, reviewer_id := rId, due_date := due_date }
        .ok ({ db with tasks := db.tasks ++ [t] }, t)

/-- Embedding of the `TaskDetailUpdateDestroyView` PATCH path with `TaskUpdateSerializer`
(assignee/reviewer path): task lookup (404), owner-or-member gate on the
task's board (403), IntegerField stage, `validate`, then the partial
update is applied to the instance and saved back. -/
def updateTask (db : DB) (uid tid : Nat)
    (assigneeRaw reviewerRaw : Option JVal) : Except ApiError (DB × Task) :=
  match db.findTask tid with
  | none => .error (.notFound "Task not found.")
  | some t =>
      match db.findBoard t.board_id with
      | none => .error (.notFound "Task not found.")
      | some b =>
          if !(b.owner_id == uid || b.member_ids.contains uid) then
            .error (.forbidden "You must be a member of this board to access this task.")
          else do
            let av ← intFieldRun "assignee_id" assigneeRaw
            let rv ← intFieldRun "reviewer_id" reviewerRaw
            let aRes ← updateResolveRef db b "assignee_id" av
            let rRes ← updateResolveRef db b "reviewer_id" rv
            let t2 : Task :=
              { t with assignee_id := aRes.getD t.assignee_id,
                       reviewer_id := rRes.getD t.reviewer_id }
            .ok ({ db with tasks := db.tasks.map (fun x => if x.id == t.id then t2 else x) }, t2)

/-!  Comments (`tasks/api/views.py`, `tasks/models.py`). -/

/-- The ordering of `Comment.Meta.ordering = ["created_at", "id"]`. -/
def comment_le (a b : Comment) : Bool :=
  decide (a.created_at < b.created_at)
    || (a.created_at == b.created_at && decide (a.id ≤ b.id))

/-- Embedding of `CommentListCreateView.get_queryset`: task lookup (404), the
`_enforce_membership` owner-or-member gate (403), then the task's
comments in the model's `(created_at, id)` ordering. -/
def listComments (db : DB) (uid tid : Nat) : Except ApiError (List Comment) :=
  match db.findTask tid with
  | none => .error (.notFound "Task not found.")
  | some t =>
      match db.findBoard t.board_id with
      | none => .error (.notFound "Task not found.")
      | some b =>
          if !(b.owner_id == uid || b.member_ids.contains uid) then
            .error (.forbidden "You must be a member of the board to access comments for this task.")
          else
            .ok (List.insertionSort (fun a b => comment_le a b) (db.comments.filter (fun c => c.task_id == t.id)))

/-- Embedding of `CommentDetailDestroyView.get_object`: `_get_task_or_404`, then the
comment is looked up within the task's comments (404 if absent) and
returned. The view performs no owner-or-member check on this path; the
`uid` argument is taken (the request is authenticated) but unused. -/
def getComment (db : DB) (uid tid cid : Nat) : Except ApiError Comment :=
  match db.findTask tid with
  | none => .error (.notFound "Task not found.")
  | some t =>
      match (db.comments.filter (fun c => c.task_id == t.id)).find? (fun c => c.id == cid) with
      | none => .error (.notFound "Comment not found.")
      | some c => .ok c

/-- Embedding of the `CommentDetailDestroyView` DELETE path: `get_object` (no membership
check), then the comment row is deleted. -/
def deleteComment (db : DB) (uid tid cid : Nat) : Except ApiError DB :=
  match getComment db uid tid cid with
  | .error e => .error e
  | .ok c => .ok { db with comments := db.comments.filter (fun x => x.id != c.id) }

/-!  User briefs (`_user_to_brief` in `tasks/api/serializers.py` and
`boards/api/serializers.py`; the two copies have identical bodies). -/

/-- The compact user projection produced by `_user_to_brief`. -/
structure Brief where
  id : Option Nat
  email : String
  fullname : String
deriving Repr, DecidableEq

/-- Python `a or b` on the id chain, where both `None` and `0` are falsy. -/
def pyOrNat : Option Nat → Option Nat → Option Nat
  | some n, b => if n = 0 then b else some n
  | none, b => b

/-- Python `a or b` on strings already defaulted from `None`, where only
`""` is falsy. -/
def pyOrStr (a b : String) : String :=
  if a = "" then b else a

/-- The dict-shaped input of `_user_to_brief` (e.g. a login/registration
payload). A field is `none` when the key is absent; an explicit JSON
`null` value behaves the same everywhere the function reads it. -/
structure UserDict where
  id : Option Nat := none
  user_id : Option Nat := none
  email : Option String := none
  fullname : Option String := none
  first_name : Option String := none
  last_name : Option String := none
  username : Option String := none
deriving Repr, DecidableEq

/-- The dict branch of `_user_to_brief`: id from `"id"` else `"user_id"`,
email defaulted to `""`, fullname by the chain
`fullname` → `f"{first} {last}"` → `username` → `""` (each stripped). -/
def user_to_brief_dict (d : UserDict) : Brief :=
  let uid := match d.id with
    | some n => some n
    | none => d.user_id
  let email := d.email.getD ""
  let fn := pyStrip (d.fullname.getD "")
  let fn :=
    if fn = "" then
      let first := pyStrip (d.first_name.getD "")
      let last := pyStrip (d.last_name.getD "")
      pyOrStr (pyStrip (first ++ " " ++ last)) (pyStrip (d.username.getD ""))
    else fn
  { id := uid, email := email, fullname := fn }

/-- The attributes probed by the object branch of `_user_to_brief`
(`getattr` with defaults). `get_full_name = some r` models a callable
`get_full_name` returning `r`; `none` models no such method. -/
structure UserAttrs where
  id : Option Nat := none
  pk : Option Nat := none
  user_id : Option Nat := none
  email : Option String := none
  get_full_name : Option (Option String) := none
  first_name : Option String := none
  last_name : Option String := none
  full_name : Option String := none
  fullname : Option String := none
  username : Option String := none
deriving Repr, DecidableEq

/-- The object branch of `_user_to_brief`: id via `id or pk or user_id`,
email defaulted, fullname via `get_full_name()` →
`f"{first_name} {last_name}".strip()` →
`(full_name or fullname or username).strip()`. -/
def user_to_brief_obj (a : UserAttrs) : Brief :=
  let uid := pyOrNat a.id (pyOrNat a.pk a.user_id)
  let email := a.email.getD ""
  let fn :=
    match a.get_full_name with
    | some r => pyStrip (r.getD "")
    | none => ""
  let fn :=
    if fn = "" then pyStrip ((a.first_name.getD "") ++ " " ++ (a.last_name.getD ""))
    else fn
  let fn :=
    if fn = "" then
      pyStrip (pyOrStr (a.full_name.getD "") (pyOrStr (a.fullname.getD "") (a.username.getD "")))
    else fn
  { id := uid, email := email, fullname := fn }

/-- The attribute view of this application's `User` model instances:
`id`/`pk` and `email` exist, `full_name` is the model's name field; the
model defines no `get_full_name`, `first_name`, `last_name`, `fullname`
or `username` attribute. -/
def User.toAttrs (u : User) : UserAttrs :=
  { id := some u.id, pk := some u.id, email := some u.email, full_name := some u.full_name }

/-- Embedding of `_user_to_brief` on an optional model instance:
`if not user: return None`, else the object branch. -/
def user_to_brief : Option User → Option Brief
  | none => none
  | some u => some (user_to_brief_obj u.toAttrs)

/-- The brief `_user_to_brief` produces for this application's stored users. -/
def user_brief (u : User) : Brief :=
  user_to_brief_obj u.toAttrs

/-- A JSON value as surfaced for a user reference in a response. -/
inductive JsonOut where
  | jnull
  | jstr (s : String)
  | jbrief (b : Brief)
deriving Repr, DecidableEq

def isBriefShaped : JsonOut → Bool
  | .jbrief _ => true
  | _ => false

def optBriefJson : Option Brief → JsonOut
  | none => .jnull
  | some b => .jbrief b

/-- Embedding of `get_assignee` (TaskCreate/TaskDetail/TaskUpdate/TaskNested
serializers): `_user_to_brief(obj.assignee)`. -/
def taskAssigneeJson (db : DB) (t : Task) : JsonOut :=
  optBriefJson (user_to_brief (t.assignee_id.bind db.findUser))

/-- Embedding of `get_reviewer`: `_user_to_brief(obj.reviewer)`. -/
def taskReviewerJson (db : DB) (t : Task) : JsonOut :=
  optBriefJson (user_to_brief (t.reviewer_id.bind db.findUser))

/-- Embedding of `BoardMembersUpdateSerializer.get_owner_data`:
`_user_to_brief(obj.owner)`. -/
def boardOwnerJson (db : DB) (b : Board) : JsonOut :=
  optBriefJson (user_to_brief (db.findUser b.owner_id))

/-- Embedding of `BoardDetailSerializer.get_members` and
`BoardMembersUpdateSerializer.get_members_data`:
`[_user_to_brief(u) for u in obj.members.all()]`. -/
def boardMembersJson (db : DB) (b : Board) : List JsonOut :=
  (db.users.filter (fun u => b.member_ids.contains u.id)).map
    (fun u => optBriefJson (user_to_brief (some u)))

/-- Embedding of `CommentSerializer.get_author`: the empty string when the comment has no author,
otherwise `_user_to_brief(user)["fullname"]` — a bare string, not the
brief object. -/
def commentAuthorJson (db : DB) (c : Comment) : JsonOut :=
  match c.author_id.bind db.findUser with
  | none => .jstr ""
  | some u => .jstr (user_to_brief_obj u.toAttrs).fullname

/-!  Concrete fixtures used to evaluate the operations on closed inputs. -/

def exAlice : User := { id := 1, email := "alice@x.com", full_name := "Alice Smith" }

def exBob : User := { id := 2, email := "bob@x.com", full_name := "Bob Jones" }

def exMallory : User := { id := 3, email := "mallory@x.com", full_name := "Mallory Eve" }

/-- Board 10 owned by Alice with Bob as its only member. -/
def exBoard : Board := { id := 10, title := "Roadmap", owner_id := 1, member_ids := [2] }

/-- Task 20 on board 10, assigned to Bob. -/
def exTask : Task :=
  { id := 20, board_id := 10, title := "Write docs", status := "to-do",
    priority := "high", assignee_id := some 2 }

/-- Comment 30 on task 20, authored by Bob, created at time 100. -/
def exComment : Comment :=
  { id := 30, task_id := 20, author_id := some 2, content := "Looks good.", created_at := 100 }

/-- Comment 31 on task 20, authorless, created at time 50 (stored after
comment 30, so listing must reorder). -/
def exComment2 : Comment :=
  { id := 31, task_id := 20, author_id := none, content := "First!", created_at := 50 }

def exDB : DB :=
  { users := [exAlice, exBob, exMallory], boards := [exBoard],
    tasks := [exTask], comments := [exComment, exComment2] }

/-!  Helper lemmas. -/

theorem dedup_keep_first_go (l : List Nat) :
    ∀ acc : List Nat,
      (∀ x, x ∈ l.foldl (fun acc x => if acc.contains x then acc else acc ++ [x]) acc ↔
        x ∈ acc ∨ x ∈ l) ∧
      (acc.Nodup → (l.foldl (fun acc x => if acc.contains x then acc else acc ++ [x]) acc).Nodup) := by
  induction l with
  | nil => intro acc; simp
  | cons a l ih =>
      intro acc
      constructor
      · intro x
        rw [List.foldl_cons]
        rw [(ih (if acc.contains a then acc else acc ++ [a])).1 x]
        by_cases hc : acc.contains a
        · have ha : a ∈ acc := by simpa using hc
          rw [if_pos hc]
          simp only [List.mem_cons]
          constructor
          · rintro (hx | hx)
            · exact Or.inl hx
            · exact Or.inr (Or.inr hx)
          · rintro (hx | hx | hx)
            · exact Or.inl hx
            · exact Or.inl (hx ▸ ha)
            · exact Or.inr hx
        · rw [if_neg hc]
          simp only [List.mem_append, List.mem_singleton, List.mem_cons]
          tauto
      · intro hacc
        rw [List.foldl_cons]
        apply (ih _).2
        by_cases hc : acc.contains a
        · rw [if_pos hc]; exact hacc
        · rw [if_neg hc]
          have ha : a ∉ acc := by simpa using hc
          simp [List.nodup_append, hacc, ha]

theorem mem_dedup_keep_first (l : List Nat) (x : Nat) :
    x ∈ dedup_keep_first l ↔ x ∈ l := by
  unfold dedup_keep_first
  rw [(dedup_keep_first_go l []).1 x]
  simp

theorem nodup_dedup_keep_first (l : List Nat) : (dedup_keep_first l).Nodup := by
  unfold dedup_keep_first
  exact (dedup_keep_first_go l []).2 List.nodup_nil

theorem dedup_keep_first_go_disjoint (l : List Nat) :
    ∀ acc : List Nat, l.Nodup → (∀ x ∈ l, x ∉ acc) →
      l.foldl (fun acc x => if acc.contains x then acc else acc ++ [x]) acc = acc ++ l := by
  induction l with
  | nil => intro acc _ _; simp
  | cons a l ih =>
      intro acc hnd hdisj
      rw [List.foldl_cons]
      have ha : a ∉ acc := hdisj a (List.mem_cons_self a l)
      rw [if_neg (by simpa using ha)]
      rw [ih (acc ++ [a]) (List.Nodup.of_cons hnd)]
      · simp
      · intro x hx
        simp only [List.mem_append, List.mem_singleton]
        rintro (h | h)
        · exact hdisj x (List.mem_cons_of_mem a hx) h
        · subst h
          exact (List.nodup_cons.mp hnd).1 hx

theorem dedup_keep_first_of_nodup (l : List Nat) (h : l.Nodup) :
    dedup_keep_first l = l := by
  unfold dedup_keep_first
  simpa using dedup_keep_first_go_disjoint l [] h (by simp)

theorem dedup_keep_first_idem (l : List Nat) :
    dedup_keep_first (dedup_keep_first l) = dedup_keep_first l :=
  dedup_keep_first_of_nodup _ (nodup_dedup_keep_first l)

theorem comment_le_iff (a b : Comment) :
    comment_le a b = true ↔
      a.created_at < b.created_at ∨ (a.created_at = b.created_at ∧ a.id ≤ b.id) := by
  simp [comment_le]

theorem comment_le_trans (a b c : Comment) :
    comment_le a b → comment_le b c → comment_le a c := by
  intro h1 h2
  rw [comment_le_iff] at *
  omega

theorem comment_le_total (a b : Comment) : comment_le a b || comment_le b a := by
  rcases Nat.lt_trichotomy a.created_at b.created_at with h | h | h
  · simp [comment_le_iff, h]
  · rcases Nat.le_total a.id b.id with h2 | h2 <;> simp [comment_le_iff, h, h2]
  · simp [comment_le_iff, Or.inl h]

/-!  Claim theorems. -/

/-- C4: for every state and caller, a missing board yields NotFound; an
existing board whose owner-or-member test fails for the caller yields
Forbidden on GET/PATCH; and once the board exists the result is never
NotFound — the existence check precedes the access check. -/
theorem getBoard_forbidden_not_notFound (db : DB) (uid bid : Nat) :
    (db.findBoard bid = none → getBoard db uid bid = .error (.notFound "Board not found."))
    ∧ (∀ b, db.findBoard bid = some b → b.isOwnerOrMember uid = false →
        getBoard db uid bid = .error (.forbidden "You do not have access to this board."))
    ∧ (∀ b, db.findBoard bid = some b → ∀ m, getBoard db uid bid ≠ .error (.notFound m)) := by
  refine ⟨fun h => by simp [getBoard, h], fun b hb hm => ?_, fun b hb m => ?_⟩
  · rw [Board.isOwnerOrMember, Bool.or_eq_false_iff] at hm
    have hnm : uid ∉ b.member_ids := by simpa using hm.2
    have hcond : (b.owner_id != uid && !(b.member_ids.contains uid)) = true := by
      simp [bne, hm.1, hnm]
    simp only [getBoard, hb]
    rw [if_pos hcond]
  · simp only [getBoard, hb]
    split <;> simp

/-- Witness for C4 at a concrete state: board 99 does not exist, and
Mallory (user 3) is neither owner nor member of existing board 10. -/
theorem getBoard_forbidden_not_notFound_witness :
    getBoard exDB 3 99 = .error (.notFound "Board not found.")
    ∧ getBoard exDB 3 10 = .error (.forbidden "You do not have access to this board.")
    ∧ ∀ m, getBoard exDB 3 10 ≠ .error (.notFound m) :=
  ⟨(getBoard_forbidden_not_notFound exDB 3 99).1 rfl,
   (getBoard_forbidden_not_notFound exDB 3 10).2.1 exBoard rfl (by decide),
   (getBoard_forbidden_not_notFound exDB 3 10).2.2 exBoard rfl⟩

/-- C6: deleting an existing board fails with Forbidden for every caller
other than the owner (an error result leaves the store untouched), and
for the owner it succeeds, removing the board, every task of the board,
and every comment whose task belonged to the board. -/
theorem deleteBoard_owner_only_cascade (db : DB) (uid bid : Nat) (b : Board)
    (hb : db.findBoard bid = some b) :
    (uid ≠ b.owner_id →
        deleteBoard db uid bid = .error (.forbidden "Only the board owner may delete this board."))
    ∧ (uid = b.owner_id → ∃ db2, deleteBoard db uid bid = .ok db2
        ∧ (∀ x ∈ db2.boards, x.id ≠ b.id)
        ∧ (∀ t ∈ db2.tasks, t.board_id ≠ b.id)
        ∧ (∀ c ∈ db2.comments, c ∈ db.comments ∧
            ∀ t ∈ db.tasks, t.id = c.task_id → t.board_id ≠ b.id)) := by
  constructor
  · intro hne
    have hbne : (uid != b.owner_id) = true := by simpa using hne
    simp [deleteBoard, hb, hbne]
  · intro heq
    refine ⟨{ db with
        boards := db.boards.filter (fun x => x.id != b.id),
        tasks := db.tasks.filter (fun t => t.board_id != b.id),
        comments := db.comments.filter (fun c =>
          !(((db.tasks.filter (fun t => t.board_id == b.id)).map
              (fun t => t.id)).contains c.task_id)) },
      by simp [deleteBoard, hb, heq], ?_, ?_, ?_⟩
    · intro x hx
      have := (List.mem_filter.mp hx).2
      simpa using this
    · intro t htmem
      have := (List.mem_filter.mp htmem).2
      simpa using this
    · intro c hc
      obtain ⟨hcmem, hkeep⟩ := List.mem_filter.mp hc
      refine ⟨hcmem, ?_⟩
      intro t htmem htid
      intro hbd
      have hdead : t.id ∈ (db.tasks.filter (fun t => t.board_id == b.id)).map (fun t => t.id) :=
        List.mem_map.mpr ⟨t, List.mem_filter.mpr ⟨htmem, by simp [hbd]⟩, rfl⟩
      rw [htid] at hdead
      simp [hdead] at hkeep

/-- Witness for C6: Bob (member, not owner) is refused; Alice (owner)
deletes board 10 and the cascade removes task 20 and its comments. -/
theorem deleteBoard_owner_only_cascade_witness :
    deleteBoard exDB 2 10 = .error (.forbidden "Only the board owner may delete this board.")
    ∧ (∃ db2, deleteBoard exDB 1 10 = .ok db2
        ∧ (∀ x ∈ db2.boards, x.id ≠ exBoard.id)
        ∧ (∀ t ∈ db2.tasks, t.board_id ≠ exBoard.id)
        ∧ (∀ c ∈ db2.comments, c ∈ exDB.comments ∧
            ∀ t ∈ exDB.tasks, t.id = c.task_id → t.board_id ≠ exBoard.id)) :=
  ⟨(deleteBoard_owner_only_cascade exDB 2 10 exBoard rfl).1 (by decide),
   (deleteBoard_owner_only_cascade exDB 1 10 exBoard rfl).2 rfl⟩

/-- C8: a registration whose email matches an existing user's email up to
letter case always fails with a ValidationError whose details carry the
field-scoped email message, and never creates a user, regardless of the
other fields. -/
theorem register_duplicate_email_fails (db : DB)
    (fullname email password repeated : String) (u : User)
    (hu : u ∈ db.users) (he : pyLower u.email = pyLower email) :
    (∃ details, register db fullname email password repeated = .error (.validation details)
        ∧ ("email", "A user with this email already exists.") ∈ details)
    ∧ ∀ db2, register db fullname email password repeated ≠ .ok db2 := by
  have hdup : db.users.any (fun v => pyLower v.email == pyLower email) = true :=
    List.any_eq_true.mpr ⟨u, hu, by simp [he]⟩
  have hmem : ("email", "A user with this email already exists.") ∈
      registrationFieldErrors db email password repeated := by
    unfold registrationFieldErrors
    simp [hdup]
  have hne : registrationFieldErrors db email password repeated ≠ [] := by
    intro hnil
    rw [hnil] at hmem
    simp at hmem
  constructor
  · exact ⟨registrationFieldErrors db email password repeated,
      by unfold register; simp [hne], hmem⟩
  · intro db2
    unfold register
    simp [hne]

/-- Witness for C8: registering "ALICE@X.COM" while "alice@x.com" exists. -/
theorem register_duplicate_email_fails_witness :
    (∃ details, register exDB "Eve" "ALICE@X.COM" "password123" "password123" =
          .error (.validation details)
        ∧ ("email", "A user with this email already exists.") ∈ details)
    ∧ ∀ db2, register exDB "Eve" "ALICE@X.COM" "password123" "password123" ≠ .ok db2 :=
  register_duplicate_email_fails exDB "Eve" "ALICE@X.COM" "password123" "password123"
    exAlice (by decide) rfl

/-- C1: code bug. `CommentDetailDestroyView.get_object` never runs the
owner-or-member check, contradicting the view's own docstring
("Permissions: User must be the board owner or a board member",
"403 Forbidden → User not member of the board"). Mallory (user 3) is
neither owner nor member of board 10, yet getComment and deleteComment
on comment 30 of task 20 both succeed. -/
theorem comment_detail_ignores_membership :
    exBoard.isOwnerOrMember 3 = false
    ∧ exDB.findTask 20 = some exTask
    ∧ exTask.board_id = exBoard.id
    ∧ getComment exDB 3 20 30 = .ok exComment
    ∧ deleteComment exDB 3 20 30 = .ok { exDB with comments := [exComment2] } :=
  ⟨by decide, rfl, rfl, rfl, rfl⟩

/-- C2: code bug. On PATCH of task 20 (assignee currently user 2, caller
is the board owner): `assignee_id = null` leaves the assignee unchanged
(the serializer pops the `None` and skips); `""` and `false` never reach
the clearing test — the IntegerField rejects them with "A valid integer
is required."; the value that actually clears the assignee is the
integer 0, accepted because Python's `0 in ("", False)` is true. This
contradicts the serializer's own docstring
(`assignee_id (int | "" | false | null)` as accepted clearing inputs). -/
theorem update_task_clearing_signals :
    exTask.assignee_id = some 2
    ∧ updateTask exDB 1 20 (some .jnull) none = .ok (exDB, exTask)
    ∧ updateTask exDB 1 20 (some (.jstr "")) none =
        .error (.validation [("assignee_id", "A valid integer is required.")])
    ∧ updateTask exDB 1 20 (some (.jbool false)) none =
        .error (.validation [("assignee_id", "A valid integer is required.")])
    ∧ updateTask exDB 1 20 (some (.jint 0)) none =
        .ok ({ exDB with tasks := [{ exTask with assignee_id := none }] },
             { exTask with assignee_id := none }) :=
  ⟨rfl, rfl, rfl, rfl, rfl⟩

/-- C3 counterexample: the comment author is surfaced as the bare
fullname string, not as a `{id, email, fullname}` brief object. -/
theorem comment_author_not_brief :
    commentAuthorJson exDB exComment = .jstr "Bob Jones"
    ∧ isBriefShaped (commentAuthorJson exDB exComment) = false :=
  ⟨rfl, by decide⟩

/-- C5 counterexample: on updateTask, `assignee_id = 0` — an id held by
no user at all — is not rejected with a ValidationError: it clears the
assignee (the clearing test `in ("", False)` matches the integer 0). -/
theorem update_zero_id_not_rejected :
    exDB.users.all (fun u => u.id != 0) = true
    ∧ updateTask exDB 1 20 (some (.jint 0)) none =
        .ok ({ exDB with tasks := [{ exTask with assignee_id := none }] },
             { exTask with assignee_id := none }) :=
  ⟨by decide, rfl⟩

/-- C5 amended: whenever the supplied reference id does not resolve to a
user who is the board's owner or a member (including ids of non-existent
users), `TaskCreateSerializer.validate` rejects it with a ValidationError
naming the field; `TaskUpdateSerializer.validate` does the same for every
value other than 0, while 0 is consumed by the clearing test and unsets
the reference instead. -/
theorem nonmember_reference_rejected (db : DB) (b : Board) (field : String) (n : Int)
    (h : ∀ u, db.users.find? (fun v => (v.id : Int) == n) = some u →
        (u.id == b.owner_id || b.member_ids.contains u.id) = false) :
    (∃ msg, createResolveRef db b field (some n) = .error (.validation [(field, msg)]))
    ∧ (n ≠ 0 → ∃ msg, updateResolveRef db b field (some n) = .error (.validation [(field, msg)]))
    ∧ (n = 0 → updateResolveRef db b field (some n) = .ok (some none)) := by
  have hcre : ∃ msg, memberOrOwnerRef db b field n = .error (.validation [(field, msg)]) := by
    unfold memberOrOwnerRef
    cases hf : db.users.find? (fun v => (v.id : Int) == n) with
    | none => exact ⟨"User not found.", rfl⟩
    | some u =>
        refine ⟨"User is not a member of this board.", ?_⟩
        obtain ⟨h1, h2⟩ := Bool.or_eq_false_iff.mp (h u hf)
        have h1b : ¬u.id = b.owner_id := by simpa using h1
        have h2b : u.id ∉ b.member_ids := by simpa using h2
        simp [h1b, h2b]
  obtain ⟨msg, hmsg⟩ := hcre
  refine ⟨⟨msg, ?_⟩, fun hn => ⟨msg, ?_⟩, fun hn => ?_⟩
  · simp only [createResolveRef, hmsg]
    rfl
  · simp only [updateResolveRef]
    rw [if_neg (by simpa using hn), hmsg]
    rfl
  · simp only [updateResolveRef]
    rw [if_pos (by simpa using hn)]

/-- Witness for C5 amended at id 5, which belongs to no user of the
concrete state. -/
theorem nonmember_reference_rejected_witness :
    (∃ msg, createResolveRef exDB exBoard "assignee_id" (some 5) =
        .error (.validation [("assignee_id", msg)]))
    ∧ ((5 : Int) ≠ 0 → ∃ msg, updateResolveRef exDB exBoard "assignee_id" (some 5) =
        .error (.validation [("assignee_id", msg)]))
    ∧ ((5 : Int) = 0 → updateResolveRef exDB exBoard "assignee_id" (some 5) = .ok (some none)) :=
  nonmember_reference_rejected exDB exBoard "assignee_id" 5 (by
    intro u hu
    have hnone : exDB.users.find? (fun v => (v.id : Int) == 5) = none := rfl
    rw [hnone] at hu
    cases hu)

/-- C7: for an authorized caller on an existing task, listComments
returns exactly the task's comments, sorted by `(created_at, id)`
ascending; and when the stored order is already sorted by that key (as
when comments are created in sequence), the listing equals the stored
creation order. -/
theorem list_comments_sorted (db : DB) (uid tid : Nat) (t : Task) (b : Board)
    (ht : db.findTask tid = some t) (hbd : db.findBoard t.board_id = some b)
    (hm : (b.owner_id == uid || b.member_ids.contains uid) = true) :
    ∃ l, listComments db uid tid = .ok l
      ∧ l.Perm (db.comments.filter (fun c => c.task_id == t.id))
      ∧ l.Pairwise (fun a c =>
          a.created_at < c.created_at ∨ (a.created_at = c.created_at ∧ a.id ≤ c.id))
      ∧ ((db.comments.filter (fun c => c.task_id == t.id)).Pairwise
            (fun a c => comment_le a c = true) →
          l = db.comments.filter (fun c => c.task_id == t.id)) := by
  haveI : IsTrans Comment (fun a c => comment_le a c) :=
    ⟨fun a c e hac hce => comment_le_trans a c e hac hce⟩
  haveI : IsTotal Comment (fun a c => comment_le a c) :=
    ⟨fun a c => by simpa [Bool.or_eq_true] using comment_le_total a c⟩
  have hrun : listComments db uid tid =
      .ok (List.insertionSort (fun a c => comment_le a c)
            (db.comments.filter (fun c => c.task_id == t.id))) := by
    have hm2 : b.owner_id = uid ∨ uid ∈ b.member_ids := by simpa using hm
    have himp : ¬b.owner_id = uid → uid ∈ b.member_ids := fun hne =>
      hm2.resolve_left hne
    simp [listComments, ht, hbd]
    exact himp
  refine ⟨_, hrun, List.perm_insertionSort _ _, ?_, ?_⟩
  · have hs := List.sorted_insertionSort (fun a c => comment_le a c)
      (db.comments.filter (fun c => c.task_id == t.id))
    exact hs.imp (fun hac => (comment_le_iff _ _).mp hac)
  · intro hsorted
    exact List.Sorted.insertionSort_eq hsorted

/-- Witness for C7: Alice lists the two comments of task 20, stored out
of order, and receives them sorted by creation time. -/
theorem list_comments_sorted_witness :
    ∃ l, listComments exDB 1 20 = .ok l
      ∧ l.Perm (exDB.comments.filter (fun c => c.task_id == exTask.id))
      ∧ l.Pairwise (fun a c =>
          a.created_at < c.created_at ∨ (a.created_at = c.created_at ∧ a.id ≤ c.id))
      ∧ ((exDB.comments.filter (fun c => c.task_id == exTask.id)).Pairwise
            (fun a c => comment_le a c = true) →
          l = exDB.comments.filter (fun c => c.task_id == exTask.id)) :=
  list_comments_sorted exDB 1 20 exTask exBoard rfl rfl rfl

/-- C9: member-list validation deduplicates with first occurrences before
checking: it fails exactly when some listed id resolves to no stored
user; it is invariant under first-occurrence deduplication of its input;
and on success it returns the deduplicated list, which is duplicate-free,
so the resulting member set (when user ids are unique, as primary keys
are) contains each listed-and-existing user exactly once. -/
theorem validate_members_dedup_spec (db : DB) (value : List Nat) :
    ((∃ e, validate_members db value = .error e) ↔ ∃ uid ∈ value, db.findUser uid = none)
    ∧ validate_members db value = validate_members db (dedup_keep_first value)
    ∧ (∀ ids, validate_members db value = .ok ids →
        ids = dedup_keep_first value ∧ ids.Nodup ∧
        ((db.users.map (fun u => u.id)).Nodup →
          (membersSet db ids).Nodup
          ∧ (∀ uid, uid ∈ membersSet db ids ↔ uid ∈ value ∧ ∃ u ∈ db.users, u.id = uid))) := by
  have hfind : ∀ uid : Nat,
      (db.users.any (fun u => u.id == uid) = false) ↔ db.findUser uid = none := by
    intro uid
    rw [DB.findUser, List.find?_eq_none, List.any_eq_false]
  have hmiss_iff :
      ((dedup_keep_first value).filter
          (fun uid => !(db.users.any (fun u => u.id == uid))) ≠ [])
        ↔ ∃ uid ∈ value, db.findUser uid = none := by
    constructor
    · intro hne
      obtain ⟨x, hx⟩ := List.exists_mem_of_ne_nil _ hne
      obtain ⟨hxd, hxp⟩ := List.mem_filter.mp hx
      refine ⟨x, (mem_dedup_keep_first value x).mp hxd, ?_⟩
      exact (hfind x).mp (by simpa using hxp)
    · rintro ⟨uid, hmem, hnone⟩ hnil
      have hin : uid ∈ ([] : List Nat) := by
        rw [← hnil]
        refine List.mem_filter.mpr ⟨(mem_dedup_keep_first value uid).mpr hmem, ?_⟩
        simp [(hfind uid).mpr hnone]
      simp at hin
  by_cases hmc : (dedup_keep_first value).filter
      (fun uid => !(db.users.any (fun u => u.id == uid))) = []
  · have hok : validate_members db value = .ok (dedup_keep_first value) := by
      simp [validate_members, hmc]
    have hok2 : validate_members db (dedup_keep_first value) =
        .ok (dedup_keep_first value) := by
      simp [validate_members, dedup_keep_first_idem, hmc]
    have hnomiss : ¬ ∃ uid ∈ value, db.findUser uid = none := fun hc =>
      (hmiss_iff.mpr hc) hmc
    refine ⟨iff_of_false (by simp [hok]) hnomiss, by rw [hok, hok2], ?_⟩
    intro ids hids
    rw [hok] at hids
    obtain rfl : dedup_keep_first value = ids := Except.ok.inj hids
    refine ⟨rfl, nodup_dedup_keep_first value, fun hnodup => ⟨?_, ?_⟩⟩
    · have hsub : ((db.users.filter
          (fun u => (dedup_keep_first value).contains u.id)).map (fun u => u.id)).Sublist
            (db.users.map (fun u => u.id)) :=
        (List.filter_sublist db.users).map _
      exact List.Nodup.sublist hsub hnodup
    · intro uid
      constructor
      · intro hmem
        obtain ⟨u, hu, huid⟩ := List.mem_map.mp hmem
        obtain ⟨huser, hcont⟩ := List.mem_filter.mp hu
        have hid : uid ∈ dedup_keep_first value := by
          rw [← huid]
          simpa using hcont
        exact ⟨(mem_dedup_keep_first value uid).mp hid, u, huser, huid⟩
      · rintro ⟨hval, u, hu, huid⟩
        refine List.mem_map.mpr ⟨u, List.mem_filter.mpr ⟨hu, ?_⟩, huid⟩
        have : u.id ∈ dedup_keep_first value := by
          rw [huid]
          exact (mem_dedup_keep_first value uid).mpr hval
        simpa using this
  · have herr : validate_members db value =
        .error (.validation [("members", "Unknown user IDs.")]) := by
      simp [validate_members, hmc]
    have herr2 : validate_members db (dedup_keep_first value) =
        .error (.validation [("members", "Unknown user IDs.")]) := by
      simp [validate_members, dedup_keep_first_idem, hmc]
    refine ⟨iff_of_true ⟨_, herr⟩ (hmiss_iff.mp hmc), by rw [herr, herr2], ?_⟩
    intro ids hids
    rw [herr] at hids
    cases hids

/-- Witness for C9: the duplicated list [2, 3, 2] validates to [2, 3]
and each listed user lands in the member set exactly once. -/
theorem validate_members_dedup_spec_witness :
    [2, 3] = dedup_keep_first [2, 3, 2] ∧ List.Nodup [2, 3] ∧
      ((exDB.users.map (fun u => u.id)).Nodup →
        (membersSet exDB [2, 3]).Nodup
        ∧ (∀ uid, uid ∈ membersSet exDB [2, 3] ↔
            uid ∈ [2, 3, 2] ∧ ∃ u ∈ exDB.users, u.id = uid)) :=
  (validate_members_dedup_spec exDB [2, 3, 2]).2.2 [2, 3] rfl

/-- C10: for any state whose board and task ids are unique (they are
primary keys), listBoards contains a board exactly when the caller is
its owner or a member; each such board occurs exactly once (an owner who
is also listed as member still yields one row); the result ascends
strictly in board id; and every annotated count counts a duplicate-free
list of matching tasks. -/
theorem list_boards_distinct_sorted (db : DB) (uid : Nat)
    (hb : (db.boards.map (fun b => b.id)).Nodup)
    (ht : (db.tasks.map (fun t => t.id)).Nodup) :
    (∀ b, b ∈ listBoards db uid ↔ b ∈ db.boards ∧ b.isOwnerOrMember uid = true)
    ∧ (∀ b ∈ db.boards, b.isOwnerOrMember uid = true → (listBoards db uid).count b = 1)
    ∧ (listBoards db uid).Pairwise (fun a c => a.id < c.id)
    ∧ (∀ b : Board,
        ((db.tasks.filter (fun t => t.board_id == b.id)).map (fun t => t.id)).Nodup
        ∧ ((db.tasks.filter (fun t => t.board_id == b.id && t.status == "to-do")).map
            (fun t => t.id)).Nodup
        ∧ ((db.tasks.filter (fun t => t.board_id == b.id && t.priority == "high")).map
            (fun t => t.id)).Nodup) := by
  haveI : IsTotal Board (fun a c => a.id ≤ c.id) := ⟨fun a c => Nat.le_total a.id c.id⟩
  haveI : IsTrans Board (fun a c => a.id ≤ c.id) := ⟨fun a c e => Nat.le_trans⟩
  have hperm : (listBoards db uid).Perm
      (db.boards.filter (fun b => b.owner_id == uid || b.member_ids.contains uid)) :=
    List.perm_insertionSort _ _
  have hboards_nodup : db.boards.Nodup := List.Nodup.of_map _ hb
  have hfil_nodup : (db.boards.filter
      (fun b => b.owner_id == uid || b.member_ids.contains uid)).Nodup :=
    hboards_nodup.filter _
  have hl_nodup : (listBoards db uid).Nodup := hperm.nodup_iff.mpr hfil_nodup
  have hmem : ∀ b, b ∈ listBoards db uid ↔
      b ∈ db.boards ∧ b.isOwnerOrMember uid = true := by
    intro b
    rw [hperm.mem_iff, List.mem_filter]
    rfl
  refine ⟨hmem, ?_, ?_, ?_⟩
  · intro b hbm hbo
    exact List.count_eq_one_of_mem hl_nodup ((hmem b).mpr ⟨hbm, hbo⟩)
  · have hs : (listBoards db uid).Pairwise (fun a c => a.id ≤ c.id) :=
      List.sorted_insertionSort _ _
    have hmap : ((listBoards db uid).map (fun b => b.id)).Nodup := by
      refine (hperm.map (fun b => b.id)).nodup_iff.mpr ?_
      exact List.Nodup.sublist ((List.filter_sublist db.boards).map _) hb
    have hpne : (listBoards db uid).Pairwise (fun a c => a.id ≠ c.id) :=
      List.pairwise_map.mp hmap
    exact (hs.and hpne).imp (fun h => lt_of_le_of_ne h.1 h.2)
  · intro b
    refine ⟨?_, ?_, ?_⟩ <;>
      exact List.Nodup.sublist ((List.filter_sublist db.tasks).map _) ht

/-- Witness for C10 at the concrete state: Bob sees board 10 once, in a
sorted singleton, and the task-count lists are duplicate-free. -/
theorem list_boards_distinct_sorted_witness :
    (exBoard ∈ listBoards exDB 2 ↔ exBoard ∈ exDB.boards ∧ exBoard.isOwnerOrMember 2 = true)
    ∧ (listBoards exDB 2).count exBoard = 1
    ∧ (listBoards exDB 2).Pairwise (fun a c => a.id < c.id) :=
  ⟨(list_boards_distinct_sorted exDB 2 (by decide) (by decide)).1 exBoard,
   (list_boards_distinct_sorted exDB 2 (by decide) (by decide)).2.1 exBoard
      (by decide) (by decide),
   (list_boards_distinct_sorted exDB 2 (by decide) (by decide)).2.2.1⟩

/-- C3 amended: board owner, board members, task assignee and task
reviewer are surfaced as `{id, email, fullname}` briefs (or null for an
unset optional reference), with the fullname produced by the fallback
chain — explicit full-name field, else composed first+last, else a
username-like fallback, else `""`; the comment author, however, is
surfaced as the brief's fullname string alone (empty when the author is
gone). For this application's stored users the chain resolves to the
stripped `full_name` field. -/
theorem user_reference_shapes (db : DB) (t : Task) (b : Board) (c : Comment)
    (d : UserDict) (u : User) :
    (taskAssigneeJson db t = .jnull ∨ ∃ br, taskAssigneeJson db t = .jbrief br)
    ∧ (taskReviewerJson db t = .jnull ∨ ∃ br, taskReviewerJson db t = .jbrief br)
    ∧ (boardOwnerJson db b = .jnull ∨ ∃ br, boardOwnerJson db b = .jbrief br)
    ∧ (∀ j ∈ boardMembersJson db b, ∃ br, j = .jbrief br)
    ∧ (∃ s, commentAuthorJson db c = .jstr s)
    ∧ isBriefShaped (commentAuthorJson db c) = false
    ∧ (pyStrip (d.fullname.getD "") ≠ "" →
        (user_to_brief_dict d).fullname = pyStrip (d.fullname.getD ""))
    ∧ (pyStrip (d.fullname.getD "") = "" →
        (pyStrip (pyStrip (d.first_name.getD "") ++ " " ++ pyStrip (d.last_name.getD "")) ≠ "" →
          (user_to_brief_dict d).fullname =
            pyStrip (pyStrip (d.first_name.getD "") ++ " " ++ pyStrip (d.last_name.getD "")))
        ∧ (pyStrip (pyStrip (d.first_name.getD "") ++ " " ++ pyStrip (d.last_name.getD "")) = "" →
          (user_to_brief_dict d).fullname = pyStrip (d.username.getD "")))
    ∧ (user_brief u).email = u.email
    ∧ (user_brief u).fullname = pyStrip u.full_name
    ∧ (u.id ≠ 0 → (user_brief u).id = some u.id) := by
  refine ⟨?_, ?_, ?_, ?_, ?_, ?_, ?_, ?_, ?_, ?_, ?_⟩
  · cases h : t.assignee_id.bind db.findUser with
    | none => exact Or.inl (by simp [taskAssigneeJson, h, user_to_brief, optBriefJson])
    | some v =>
        exact Or.inr ⟨user_to_brief_obj v.toAttrs,
          by simp [taskAssigneeJson, h, user_to_brief, optBriefJson]⟩
  · cases h : t.reviewer_id.bind db.findUser with
    | none => exact Or.inl (by simp [taskReviewerJson, h, user_to_brief, optBriefJson])
    | some v =>
        exact Or.inr ⟨user_to_brief_obj v.toAttrs,
          by simp [taskReviewerJson, h, user_to_brief, optBriefJson]⟩
  · cases h : db.findUser b.owner_id with
    | none => exact Or.inl (by simp [boardOwnerJson, h, user_to_brief, optBriefJson])
    | some v =>
        exact Or.inr ⟨user_to_brief_obj v.toAttrs,
          by simp [boardOwnerJson, h, user_to_brief, optBriefJson]⟩
  · intro j hj
    obtain ⟨v, hv, hjv⟩ := List.mem_map.mp hj
    exact ⟨_, by rw [← hjv]; rfl⟩
  · cases h : c.author_id.bind db.findUser with
    | none => exact ⟨"", by simp [commentAuthorJson, h]⟩
    | some v =>
        exact ⟨(user_to_brief_obj v.toAttrs).fullname, by simp [commentAuthorJson, h]⟩
  · cases h : c.author_id.bind db.findUser with
    | none => simp [commentAuthorJson, h, isBriefShaped]
    | some v => simp [commentAuthorJson, h, isBriefShaped]
  · intro h
    simp [user_to_brief_dict, h]
  · intro h
    constructor
    · intro h2
      simp [user_to_brief_dict, h, pyOrStr, h2]
    · intro h2
      simp [user_to_brief_dict, h, pyOrStr, h2]
  · rfl
  · have hsp : pyStrip " " = "" := rfl
    have hse : pyStrip "" = "" := rfl
    by_cases hfe : u.full_name = "" <;>
      simp [user_brief, user_to_brief_obj, User.toAttrs, pyOrStr, hsp, hse, hfe]
  · intro h
    simp [user_brief, user_to_brief_obj, User.toAttrs, pyOrNat, h]

/-- Witness for C3 amended, instantiated at Bob and comment 30: an
actual brief for the stored user, a bare string for the comment author. -/
theorem user_reference_shapes_witness :
    (user_brief exBob).email = exBob.email
    ∧ (user_brief exBob).fullname = pyStrip exBob.full_name
    ∧ (user_brief exBob).id = some exBob.id
    ∧ isBriefShaped (commentAuthorJson exDB exComment) = false := by
  obtain ⟨h1, h2, h3, h4, h5, h6, h7, h8, h9, h10, h11⟩ :=
    user_reference_shapes exDB exTask exBoard exComment {} exBob
  exact ⟨h9, h10, h11 (by decide), h6⟩

end TaskBoard
